import Mathlib

/-!
Verification development for the revio-agents repository: a shallow
embedding of the diff-parsing algorithm (GitService.parseDiffHunks and
GitService.getDiff), the command dispatcher (WebSocketService.handleCommand),
the filesystem collaborator (FileSystemService.readFile and
FileSystemService.search), and the lifecycle supervisor of the agent entry
point (timers and exit codes), together with theorems settling the stated
properties of each.
-/

namespace Revio

/-- A parsed diff hunk, mirroring the DiffHunk interface of the protocol
types: old/new starting line and length, and the raw lines of the hunk
body including their leading marker character. -/
structure DiffHunk where
  oldStart : Nat
  oldLines : Nat
  newStart : Nat
  newLines : Nat
  lines : List String
  deriving Repr, DecidableEq

/-- Value of a nonempty digit string, as parseInt computes it on an
all-digit input. -/
def digitsToNat (ds : List Char) : Nat :=
  ds.foldl (fun a c => 10 * a + (c.toNat - 48)) 0

/-- Greedy maximal run of ASCII digits at the head of a character list,
returning the run and the remainder: the deterministic reading of a
greedy run of digit matches at this position of the pattern. -/
def spanDigits : List Char → List Char × List Char
  | [] => ([], [])
  | c :: cs =>
    if c.isDigit then
      let (d, r) := spanDigits cs
      (c :: d, r)
    else
      ([], c :: cs)

/-- Consume one comma if present: the optional comma of the header
pattern. -/
def afterComma : List Char → List Char
  | ',' :: cs => cs
  | cs => cs

/-- Value of a possibly-empty count group: an omitted count defaults to
1, as in parseInt applied to the group or the string 1 when the group is
empty. -/
def countOr1 (ds : List Char) : Nat :=
  if ds = [] then 1 else digitsToNat ds

/-- Match of the hunk-header pattern at the start of a line, as
GitService.parseDiffHunks tests each line: at-signs, space, minus, a digit
run, an optional comma and digit run, space, plus, a digit run, an
optional comma and digit run, then space and two at-signs; the rest of the
line is unconstrained.  Returns the four header fields on success. -/
def matchHunkHeader (line : String) : Option (Nat × Nat × Nat × Nat) :=
  match line.data with
  | '@' :: '@' :: ' ' :: '-' :: rest =>
    let (d1, r1) := spanDigits rest
    if d1 = [] then none
    else
      let (d2, r3) := spanDigits (afterComma r1)
      match r3 with
      | ' ' :: '+' :: r4 =>
        let (d3, r5) := spanDigits r4
        if d3 = [] then none
        else
          let (d4, r7) := spanDigits (afterComma r5)
          match r7 with
          | ' ' :: '@' :: '@' :: _ =>
            some (digitsToNat d1, countOr1 d2, digitsToNat d3, countOr1 d4)
          | _ => none
      | _ => none
  | _ => none

/-- Splitting on the newline character, keeping empty segments: the
current segment is accumulated in reverse and flushed at each newline and
at the end, so the empty text yields one empty segment, exactly as the
split method behaves on a one-character separator. -/
def splitLinesAux : List Char → List Char → List String
  | [], acc => [⟨acc.reverse⟩]
  | c :: cs, acc =>
    if c = '\n' then ⟨acc.reverse⟩ :: splitLinesAux cs []
    else splitLinesAux cs (c :: acc)

/-- The line-splitting used throughout the source: split on the newline
character, keeping empty segments, as the split method does. -/
def splitLines (s : String) : List String :=
  splitLinesAux s.data []

/-- The main loop of GitService.parseDiffHunks over the split lines,
carrying the current open hunk: a header line flushes the open hunk and
opens a new one; any other line is appended to the open hunk when one
exists and dropped otherwise; the last open hunk is flushed at the end. -/
def parseAux : List String → Option DiffHunk → List DiffHunk
  | [], none => []
  | [], some c => [c]
  | l :: ls, cur =>
    match matchHunkHeader l with
    | some (a, b, c2, d) =>
      match cur with
      | none => parseAux ls (some ⟨a, b, c2, d, []⟩)
      | some c => c :: parseAux ls (some ⟨a, b, c2, d, []⟩)
    | none =>
      match cur with
      | none => parseAux ls none
      | some c => parseAux ls (some { c with lines := c.lines ++ [l] })

/-- GitService.parseDiffHunks: split the raw diff text into lines and run
the hunk-accumulating loop with no open hunk. -/
def parseDiffHunks (diffText : String) : List DiffHunk :=
  parseAux (splitLines diffText) none

/-- Whether a line is a hunk header. -/
def isHeader (l : String) : Bool :=
  (matchHunkHeader l).isSome

/-- The four header fields of a parsed hunk. -/
def hdrOf (h : DiffHunk) : Nat × Nat × Nat × Nat :=
  (h.oldStart, h.oldLines, h.newStart, h.newLines)

/-- The header fields a header line parses to. -/
def headerFields (l : String) : Nat × Nat × Nat × Nat :=
  (matchHunkHeader l).getD (0, 1, 0, 1)

theorem dropWhile_length_le {α : Type} (p : α → Bool) (l : List α) :
    (l.dropWhile p).length ≤ l.length := by
  induction l with
  | nil => simp
  | cons a l ih =>
    rw [List.dropWhile_cons]
    split
    · exact Nat.le_succ_of_le ih
    · exact Nat.le_refl _

/-- Reference characterization, following the specification text: a line
matching the hunk-header pattern starts a new hunk whose body is every
following line up to the next header or the end of input, kept verbatim;
lines outside any header are discarded; hunks appear in the order of
their headers. -/
def hunksSpec : List String → List DiffHunk
  | [] => []
  | l :: ls =>
    match matchHunkHeader l with
    | some (a, b, c, d) =>
      ⟨a, b, c, d, ls.takeWhile (fun x => !isHeader x)⟩ ::
        hunksSpec (ls.dropWhile (fun x => !isHeader x))
    | none => hunksSpec ls
termination_by ls => ls.length
decreasing_by
  · exact Nat.lt_succ_of_le (dropWhile_length_le _ _)
  · exact Nat.lt_succ_of_le (Nat.le_refl _)

end Revio

namespace Revio

theorem parseAux_some (ls : List String) : ∀ c : DiffHunk,
    parseAux ls (some c) =
      { c with lines := c.lines ++ ls.takeWhile (fun x => !isHeader x) } ::
        hunksSpec (ls.dropWhile (fun x => !isHeader x)) := by
  induction ls with
  | nil => intro c; simp [parseAux, hunksSpec]
  | cons l ls ih =>
    intro c
    cases hm : matchHunkHeader l with
    | some t =>
      obtain ⟨a, b, c2, d⟩ := t
      have hl : isHeader l = true := by simp [isHeader, hm]
      simp only [parseAux, hm, ih, List.takeWhile_cons, List.dropWhile_cons, hl]
      simp [hunksSpec, hm]
    | none =>
      have hl : isHeader l = false := by simp [isHeader, hm]
      simp only [parseAux, hm, ih, List.takeWhile_cons, List.dropWhile_cons, hl]
      simp

theorem parseAux_none (ls : List String) : parseAux ls none = hunksSpec ls := by
  induction ls with
  | nil => simp [parseAux, hunksSpec]
  | cons l ls ih =>
    cases hm : matchHunkHeader l with
    | some t =>
      obtain ⟨a, b, c2, d⟩ := t
      simp [parseAux, hm, parseAux_some, hunksSpec]
    | none => simp [parseAux, hm, ih, hunksSpec]

theorem parseAux_length (ls : List String) : ∀ cur : Option DiffHunk,
    (parseAux ls cur).length =
      ls.countP (fun l => isHeader l) + (match cur with | some _ => 1 | none => 0) := by
  induction ls with
  | nil => intro cur; cases cur <;> simp [parseAux]
  | cons l ls ih =>
    intro cur
    cases hm : matchHunkHeader l with
    | some t =>
      obtain ⟨a, b, c2, d⟩ := t
      have hl : isHeader l = true := by simp [isHeader, hm]
      cases cur <;> simp [parseAux, hm, ih, List.countP_cons, hl]
    | none =>
      have hl : isHeader l = false := by simp [isHeader, hm]
      cases cur <;> simp [parseAux, hm, ih, List.countP_cons, hl]

theorem parseAux_map_hdr (ls : List String) : ∀ cur : Option DiffHunk,
    (parseAux ls cur).map hdrOf =
      (match cur with | some c => [hdrOf c] | none => []) ++
        (ls.filter (fun l => isHeader l)).map headerFields := by
  induction ls with
  | nil => intro cur; cases cur <;> simp [parseAux]
  | cons l ls ih =>
    intro cur
    cases hm : matchHunkHeader l with
    | some t =>
      obtain ⟨a, b, c2, d⟩ := t
      have hl : isHeader l = true := by simp [isHeader, hm]
      cases cur <;> simp [parseAux, hm, ih, List.filter_cons, hl, hdrOf, headerFields]
    | none =>
      have hl : isHeader l = false := by simp [isHeader, hm]
      cases cur <;> simp [parseAux, hm, ih, List.filter_cons, hl, hdrOf]

/-- C2: for every unified-diff text, parseDiffHunks agrees with the
reference characterization hunksSpec (lines before the first header are
discarded, each header opens a hunk collecting all following lines
verbatim until the next header); it returns exactly as many hunks as
there are header lines, the empty sequence when there is no header, and
the hunks carry the header fields in the order the headers occur. -/
theorem parseDiffHunks_spec (t : String) :
    parseDiffHunks t = hunksSpec (splitLines t) ∧
    (parseDiffHunks t).length = (splitLines t).countP (fun l => isHeader l) ∧
    ((splitLines t).countP (fun l => isHeader l) = 0 → parseDiffHunks t = []) ∧
    (parseDiffHunks t).map hdrOf =
      ((splitLines t).filter (fun l => isHeader l)).map headerFields := by
  refine ⟨parseAux_none _, ?_, ?_, ?_⟩
  · simpa using parseAux_length (splitLines t) none
  · intro h0
    have := parseAux_length (splitLines t) none
    simp [h0] at this
    exact List.length_eq_zero.mp (by simpa [parseDiffHunks] using this)
  · simpa using parseAux_map_hdr (splitLines t) none

/-- Concrete behavior of the parser on a two-hunk diff with leading
metadata lines: the metadata is discarded and both hunks come out in
header order with their bodies verbatim. -/
theorem parseDiffHunks_two_hunk_example :
    parseDiffHunks "meta\n@@ -1,2 +1,3 @@\n ctx\n+add\n@@ -9 +10 @@\n-del" =
      [⟨1, 2, 1, 3, [" ctx", "+add"]⟩, ⟨9, 1, 10, 1, ["-del"]⟩] := by
  decide

/-- C2 witness: the zero-header conclusion of the characterization,
discharged on a concrete headerless text. -/
theorem parseDiffHunks_spec_witness :
    parseDiffHunks "just\nsome\ntext" = [] :=
  (parseDiffHunks_spec "just\nsome\ntext").2.2.1 (by decide)

/-- C8: the hunk header with the old-side count omitted parses with that
count defaulting to 1: the text consisting of that single header line
yields one hunk with fields oldStart 5, oldLines 1, newStart 5,
newLines 2 and an empty body. -/
theorem hunkHeader_omitted_count_defaults :
    matchHunkHeader "@@ -5 +5,2 @@" = some (5, 1, 5, 2) ∧
    parseDiffHunks "@@ -5 +5,2 @@" = [⟨5, 1, 5, 2, []⟩] := by
  exact ⟨rfl, rfl⟩

end Revio

namespace Revio

/-- A command envelope, mirroring the AgentCommand interface: an opaque
command id, the command type carried as a string (the switch in
WebSocketService.handleCommand dispatches on the string value), and
type-specific params kept abstract. -/
structure AgentCommand (P : Type) where
  commandId : String
  type : String
  params : P
  deriving Repr

/-- A response envelope, mirroring the AgentResponse interface: the
echoed command id, the success flag, and the data or error field. -/
structure AgentResponse (A : Type) where
  commandId : String
  success : Bool
  data : Option A
  error : Option String
  deriving Repr

/-- The command types declared by the AgentCommand union in the protocol
types module. -/
def declaredCommandTypes : List String :=
  ["read_file", "get_diff", "search", "list_files", "get_dependencies", "run_check"]

/-- The critical-command set of WebSocketService.handleCommand. -/
def criticalCommands : List String := ["get_diff"]

/-- Outcomes of the collaborator calls a dispatch may make: each handler
either returns data or fails with an error message, modelling the awaited
call either resolving or throwing. -/
structure Handlers (P A : Type) where
  readFile : P → Except String A
  getDiff : Except String A
  search : P → Except String A
  listFiles : P → Except String A
  getDependencies : Except String A

/-- The try-block body of WebSocketService.handleCommand: the switch on
the command type selecting the collaborator call, with the default case
throwing the unknown-command-type error. -/
def handlerResult {P A : Type} (h : Handlers P A) (cmd : AgentCommand P) :
    Except String A :=
  match cmd.type with
  | "read_file" => h.readFile cmd.params
  | "get_diff" => h.getDiff
  | "search" => h.search cmd.params
  | "list_files" => h.listFiles cmd.params
  | "get_dependencies" => h.getDependencies
  | _ => Except.error ("Unknown command type: " ++ cmd.type)

/-- The message passed to the critical-error callback when a critical
command fails. -/
def criticalMsg (ty m : String) : String :=
  "Critical command \x27" ++ ty ++ "\x27 failed: " ++ m

/-- WebSocketService.handleCommand: run the selected handler; on success
emit a success envelope with the data, on failure emit a failure envelope
with the error message, and additionally invoke the critical-error
callback (second component, the message passed to it) when the failed
command type is in the critical set.  Exactly one response envelope is
produced on every path. -/
def handleCommand {P A : Type} (h : Handlers P A) (cmd : AgentCommand P) :
    AgentResponse A × Option String :=
  match handlerResult h cmd with
  | Except.ok d => (⟨cmd.commandId, true, some d, none⟩, none)
  | Except.error m =>
    (⟨cmd.commandId, false, none, some m⟩,
     if criticalCommands.contains cmd.type then some (criticalMsg cmd.type m)
     else none)

/-- C1: dispatch is a total function producing exactly one response
envelope; the envelope always echoes the input command id, for every
command type including unknown ones, and whenever the selected handler
fails with a message the envelope is the failure envelope carrying
success false and that message as the error, with no data. -/
theorem handleCommand_total_commandId {P A : Type}
    (h : Handlers P A) (cmd : AgentCommand P) :
    (handleCommand h cmd).1.commandId = cmd.commandId ∧
    (∀ m, handlerResult h cmd = Except.error m →
      (handleCommand h cmd).1 = ⟨cmd.commandId, false, none, some m⟩) := by
  cases hr : handlerResult h cmd <;> simp [handleCommand, hr]

/-- C1 witness: the theorem applied to a concrete unknown-type command,
with the failure hypothesis discharged by evaluation. -/
theorem handleCommand_total_commandId_witness :
    (handleCommand
      ⟨fun _ => Except.ok 0, Except.ok 0, fun _ => Except.ok 0,
        fun _ => Except.ok 0, Except.ok 0⟩
      (⟨"cmd-1", "bogus", ()⟩ : AgentCommand Unit)).1 =
      ⟨"cmd-1", false, none, some "Unknown command type: bogus"⟩ :=
  (handleCommand_total_commandId
      ⟨fun _ => Except.ok 0, Except.ok 0, fun _ => Except.ok 0,
        fun _ => Except.ok 0, Except.ok 0⟩
      (⟨"cmd-1", "bogus", ()⟩ : AgentCommand Unit)).2
    "Unknown command type: bogus" rfl

end Revio

namespace Revio

/-- C3: if the get_diff handler fails, dispatch still returns the normal
failure envelope to the backend and separately invokes the critical-error
callback with the critical-command message; for every command type
outside the critical set, the critical-error callback is never invoked,
whatever the handler outcome. -/
theorem getDiff_critical_escalation {P A : Type} (h : Handlers P A)
    (cid : String) (p : P) (m : String) :
    (h.getDiff = Except.error m →
      handleCommand h (⟨cid, "get_diff", p⟩ : AgentCommand P) =
        (⟨cid, false, none, some m⟩, some (criticalMsg "get_diff" m))) ∧
    (∀ ty, ty ∉ criticalCommands →
      (handleCommand h (⟨cid, ty, p⟩ : AgentCommand P)).2 = none) := by
  constructor
  · intro hm
    have hres : handlerResult h (⟨cid, "get_diff", p⟩ : AgentCommand P) = h.getDiff := rfl
    simp [handleCommand, hres, hm, criticalCommands]
  · intro ty hty
    have hne : ty ≠ "get_diff" := by simpa [criticalCommands] using hty
    have hc : criticalCommands.contains ty = false := by
      simp only [criticalCommands, List.contains_cons, List.contains_nil, Bool.or_false]
      exact beq_eq_false_iff_ne.mpr hne
    cases hr : handlerResult h (⟨cid, ty, p⟩ : AgentCommand P) <;>
      simp [handleCommand, hr, hc, hty]

/-- C3 witness: a concrete failing get_diff handler triggers both the
failure envelope and the critical escalation, while a failing search
command triggers no escalation. -/
theorem getDiff_critical_escalation_witness :
    (handleCommand
        ⟨fun _ => Except.ok 0, Except.error "boom", fun _ => Except.error "sad",
          fun _ => Except.ok 0, Except.ok 0⟩
        (⟨"c7", "get_diff", ()⟩ : AgentCommand Unit) =
      (⟨"c7", false, none, some "boom"⟩, some (criticalMsg "get_diff" "boom"))) ∧
    (handleCommand
        ⟨fun _ => Except.ok 0, Except.error "boom", fun _ => Except.error "sad",
          fun _ => Except.ok 0, Except.ok 0⟩
        (⟨"c8", "search", ()⟩ : AgentCommand Unit)).2 = none :=
  ⟨(getDiff_critical_escalation
      ⟨fun _ => Except.ok 0, Except.error "boom", fun _ => Except.error "sad",
        fun _ => Except.ok 0, Except.ok 0⟩ "c7" () "boom").1 rfl,
   (getDiff_critical_escalation
      ⟨fun _ => Except.ok 0, Except.error "boom", fun _ => Except.error "sad",
        fun _ => Except.ok 0, Except.ok 0⟩ "c8" () "boom").2 "search" (by decide)⟩

/-- C10: a command of the declared type run_check has no handler case, so
dispatch takes the unknown-type default branch: the response is the
failure envelope with the unknown-command-type message, and the
critical-error callback is not invoked since run_check is not in the
critical set. -/
theorem runCheck_unknown_branch {P A : Type} (h : Handlers P A)
    (cid : String) (p : P) :
    handleCommand h (⟨cid, "run_check", p⟩ : AgentCommand P) =
      (⟨cid, false, none, some "Unknown command type: run_check"⟩, none) ∧
    "run_check" ∈ declaredCommandTypes ∧
    "run_check" ∉ criticalCommands :=
  ⟨rfl, by decide, by decide⟩

end Revio

namespace Revio

/-- The falsy-or of the source: a missing value, and also the number 0
(falsy in the host language), select the default. -/
def jsOr : Option Int → Int → Int
  | none, d => d
  | some x, d => if x = 0 then d else x

/-- Array slice semantics of the host language: negative indices count
from the end, indices beyond the length clamp to the length, and an empty
list results when the end does not exceed the start. -/
def jsSlice (ls : List String) (start fin : Int) : List String :=
  let len : Int := ls.length
  let s := if start < 0 then max (len + start) 0 else min start len
  let e := if fin < 0 then max (len + fin) 0 else min fin len
  (ls.drop s.toNat).take (e - s).toNat

/-- Joining lines with the newline separator, as the join method does. -/
def joinLines : List String → String
  | [] => ""
  | [l] => l
  | l :: ls => l ++ "\n" ++ joinLines ls

/-- FileSystemService.readFile after a successful read: when either bound
is given, split the content into lines, slice from the 1-indexed start
(defaulting to 1) minus one up to the exclusive end bound (defaulting to
the line count), and join back; otherwise return the content whole. -/
def readFileSlice (content : String) (startLine endLine : Option Int) : String :=
  if startLine.isSome || endLine.isSome then
    let lines := splitLines content
    joinLines (jsSlice lines (jsOr startLine 1 - 1) (jsOr endLine lines.length))
  else content

theorem jsSlice_eq (ls : List String) (start fin : Int)
    (hs : 0 ≤ start) (he : 0 ≤ fin) :
    jsSlice ls start fin = (ls.drop start.toNat).take (fin - start).toNat := by
  unfold jsSlice
  have hlen : (0 : Int) ≤ (ls.length : Int) := by positivity
  simp only []
  rw [if_neg (show ¬start < 0 by omega), if_neg (show ¬fin < 0 by omega)]
  rcases le_or_lt start (ls.length : Int) with hsl | hsl
  · rw [min_eq_left hsl]
    rcases le_or_lt fin (ls.length : Int) with hfl | hfl
    · rw [min_eq_left hfl]
    · rw [min_eq_right (le_of_lt hfl)]
      have hdl : (ls.drop start.toNat).length = ls.length - start.toNat :=
        List.length_drop _ _
      rw [List.take_of_length_le (by omega), List.take_of_length_le (by omega)]
  · rw [min_eq_right (le_of_lt hsl)]
    have h1 : ls.drop start.toNat = [] := List.drop_eq_nil_of_le (by omega)
    have h2 : ls.drop (ls.length : Int).toNat = [] := List.drop_eq_nil_of_le (by omega)
    rw [h1, h2, List.take_nil, List.take_nil]

/-- C7: read_file with both bounds slices to the inclusive 1-indexed line
range with clamping (drop start-minus-one lines, take the range length,
both clamped by list length); on the concrete 5-line file, bounds 2 and 3
give exactly lines 2 and 3, and a start of 10 gives the empty result. -/
theorem readFile_range_clamps :
    (∀ (content : String) (s e : Int), 1 ≤ s → 1 ≤ e →
      readFileSlice content (some s) (some e) =
        joinLines (((splitLines content).drop (s - 1).toNat).take
          (e - (s - 1)).toNat)) ∧
    readFileSlice "l1\nl2\nl3\nl4\nl5" (some 2) (some 3) = "l2\nl3" ∧
    readFileSlice "l1\nl2\nl3\nl4\nl5" (some 10) none = "" := by
  refine ⟨?_, by decide, by decide⟩
  intro content s e hs he
  have h1 : jsOr (some s) 1 = s := by
    simp [jsOr]
    omega
  have h2 : jsOr (some e) ((splitLines content).length : Int) = e := by
    simp [jsOr]
    omega
  simp only [readFileSlice, Option.isSome_some, Bool.true_or, if_true, h1, h2]
  rw [jsSlice_eq _ _ _ (by omega) (by omega)]

/-- C7 witness: the general slicing equation applied at the concrete
5-line file with bounds 2 and 3. -/
theorem readFile_range_clamps_witness :
    readFileSlice "a\nb\nc\nd\ne" (some 2) (some 3) =
      joinLines (((splitLines "a\nb\nc\nd\ne").drop (1 : Int).toNat).take
        (2 : Int).toNat) := by
  have h := readFile_range_clamps.1 "a\nb\nc\nd\ne" 2 3 (by decide) (by decide)
  simpa using h

end Revio

namespace Revio

/-- The ways the agent process reaches an exit in the entry point: the
success path on review completion, the interrupt and termination signal
paths, and the failure paths (connect timeout, idle-watchdog expiry,
review-timeout expiry, critical error, a thrown startup failure caught in
main, and the top-level fatal catch). -/
inductive ExitTrigger
  | reviewComplete
  | sigint
  | sigterm
  | connectTimeout
  | idleExpiry
  | reviewExpiry
  | criticalError
  | agentStartupFailure
  | fatalCatch
  deriving Repr, DecidableEq

/-- exitWithError of the entry point: always emit the message, then exit
0 when fail-safe mode is enabled and 1 otherwise.  The first component is
the emitted message, the second the exit code. -/
def exitWithError (failSafe : Bool) (msg : String) : String × Nat :=
  (msg, if failSafe then 0 else 1)

/-- The exit code of each exit path of the entry point: review
completion and the signal handlers call process exit 0 directly; every
failure path funnels through exitWithError; the top-level fatal catch
repeats the fail-safe branch inline. -/
def exitCode (failSafe : Bool) : ExitTrigger → Nat
  | .reviewComplete => 0
  | .sigint => 0
  | .sigterm => 0
  | .connectTimeout => (exitWithError failSafe "connection timeout").2
  | .idleExpiry => (exitWithError failSafe "idle timeout").2
  | .reviewExpiry => (exitWithError failSafe "review timeout").2
  | .criticalError => (exitWithError failSafe "critical error").2
  | .agentStartupFailure => (exitWithError failSafe "agent failed").2
  | .fatalCatch => if failSafe then 0 else 1

/-- Whether a trigger is a failure path (as opposed to the success path
or the signal paths). -/
def isFailurePath : ExitTrigger → Bool
  | .reviewComplete => false
  | .sigint => false
  | .sigterm => false
  | _ => true

/-- C6: the exit code is 0 on review completion regardless of mode; on
every failure path it is 0 with fail-safe enabled and 1 with fail-safe
disabled; and the error message is emitted on the exitWithError path in
both modes. -/
theorem exitCode_failSafe (t : ExitTrigger) (failSafe : Bool) (msg : String) :
    exitCode failSafe ExitTrigger.reviewComplete = 0 ∧
    (isFailurePath t = true → exitCode true t = 0 ∧ exitCode false t = 1) ∧
    (exitWithError failSafe msg).1 = msg := by
  refine ⟨rfl, ?_, rfl⟩
  intro hf
  cases t <;> simp_all [exitCode, exitWithError, isFailurePath]

/-- C6 witness: the failure-path clause discharged at the idle-watchdog
trigger. -/
theorem exitCode_failSafe_witness :
    exitCode true ExitTrigger.idleExpiry = 0 ∧
    exitCode false ExitTrigger.idleExpiry = 1 :=
  (exitCode_failSafe ExitTrigger.idleExpiry true "x").2.1 rfl

end Revio

namespace Revio

/-- The status union of the FileDiff interface. -/
inductive DiffStatus
  | added
  | modified
  | deleted
  | renamed
  deriving Repr, DecidableEq

/-- A structured file diff, mirroring the FileDiff interface (the
optional oldPath is never set by GitService.getDiff and is omitted). -/
structure FileDiff where
  path : String
  status : DiffStatus
  hunks : List DiffHunk
  deriving Repr, DecidableEq

/-- One entry of the diff summary file list: the path and the binary
flag consulted by GitService.getDiff. -/
structure SummaryFile where
  file : String
  binary : Bool
  deriving Repr

/-- The diff summary as GitService.getDiff consumes it: the file list
and the aggregate insertion and deletion totals of the whole summary. -/
structure DiffSummary where
  files : List SummaryFile
  insertions : Nat
  deletions : Nat
  deriving Repr

/-- The status computation of GitService.getDiff for one file: start from
modified, switch to added when the summary has insertions and no
deletions, to deleted when it has deletions and no insertions.  The
totals are those of the whole summary, not of the file. -/
def fileStatus (ins del : Nat) : DiffStatus :=
  if ins > 0 && del == 0 then DiffStatus.added
  else if del > 0 && ins == 0 then DiffStatus.deleted
  else DiffStatus.modified

/-- GitService.getDiff: for each summary file, skip it when binary,
otherwise emit a FileDiff with the per-summary status and the hunks
parsed from the raw per-file diff text supplied by the git collaborator. -/
def getDiff (summary : DiffSummary) (rawDiff : String → String) : List FileDiff :=
  summary.files.filterMap fun f =>
    if f.binary then none
    else some ⟨f.file, fileStatus summary.insertions summary.deletions,
      parseDiffHunks (rawDiff f.file)⟩

/-- C9: every non-binary file of one getDiff result carries the status
computed from the aggregate totals of the whole summary — added exactly
when the summary has insertions and no deletions, deleted exactly when it
has deletions and no insertions, modified otherwise — so all files of one
result share the same status and renamed is never produced. -/
theorem getDiff_status_aggregate (summary : DiffSummary) (rawDiff : String → String) :
    (∀ d, d ∈ getDiff summary rawDiff →
      d.status = fileStatus summary.insertions summary.deletions) ∧
    (fileStatus summary.insertions summary.deletions = DiffStatus.added ↔
      summary.insertions > 0 ∧ summary.deletions = 0) ∧
    (fileStatus summary.insertions summary.deletions = DiffStatus.deleted ↔
      summary.deletions > 0 ∧ summary.insertions = 0) ∧
    (fileStatus summary.insertions summary.deletions ≠ DiffStatus.added →
      fileStatus summary.insertions summary.deletions ≠ DiffStatus.deleted →
      fileStatus summary.insertions summary.deletions = DiffStatus.modified) ∧
    (∀ d, d ∈ getDiff summary rawDiff → d.status ≠ DiffStatus.renamed) ∧
    (∀ d1 d2, d1 ∈ getDiff summary rawDiff → d2 ∈ getDiff summary rawDiff →
      d1.status = d2.status) := by
  have hmem : ∀ d, d ∈ getDiff summary rawDiff →
      d.status = fileStatus summary.insertions summary.deletions := by
    intro d hd
    simp only [getDiff, List.mem_filterMap] at hd
    obtain ⟨f, _, hf⟩ := hd
    by_cases hb : f.binary <;> simp [hb] at hf
    rw [← hf]
  have hstat : ∀ ins del : Nat,
      (fileStatus ins del = DiffStatus.added ↔ ins > 0 ∧ del = 0) ∧
      (fileStatus ins del = DiffStatus.deleted ↔ del > 0 ∧ ins = 0) ∧
      (fileStatus ins del ≠ DiffStatus.added →
        fileStatus ins del ≠ DiffStatus.deleted →
        fileStatus ins del = DiffStatus.modified) ∧
      fileStatus ins del ≠ DiffStatus.renamed := by
    intro ins del
    unfold fileStatus
    by_cases h1 : ins > 0 ∧ del = 0
    · rw [if_pos (by simp [h1.1, h1.2])]
      simp [h1]
    · rw [if_neg (by simpa using fun hi hd => h1 ⟨hi, by simpa using hd⟩)]
      by_cases h2 : del > 0 ∧ ins = 0
      · rw [if_pos (by simp [h2.1, h2.2])]
        simp [h2]
      · rw [if_neg (by simpa using fun hd hi => h2 ⟨hd, by simpa using hi⟩)]
        simp
        omega
  refine ⟨hmem, (hstat _ _).1, (hstat _ _).2.1, (hstat _ _).2.2.1, ?_, ?_⟩
  · intro d hd
    rw [hmem d hd]
    exact (hstat _ _).2.2.2
  · intro d1 d2 h1 h2
    rw [hmem d1 h1, hmem d2 h2]

/-- C9 witness: on a summary whose aggregate totals are pure insertions,
a file that in fact was modified still comes out with status added. -/
theorem getDiff_status_aggregate_witness :
    ∃ d, d ∈ getDiff ⟨[⟨"m.txt", false⟩, ⟨"n.txt", false⟩], 4, 0⟩ (fun _ => "") ∧
      d.path = "m.txt" ∧ d.status = DiffStatus.added :=
  ⟨⟨"m.txt", DiffStatus.added, []⟩, by
    constructor
    · decide
    · exact ⟨rfl, (getDiff_status_aggregate ⟨[⟨"m.txt", false⟩, ⟨"n.txt", false⟩], 4, 0⟩
        (fun _ => "")).2.1.mpr (by decide)⟩⟩

end Revio

namespace Revio

/-- Case-insensitive character comparison: the i flag of the search
regular expression, modelled for literal (metacharacter-free) patterns. -/
def ciEq (a b : Char) : Bool :=
  a.toLower == b.toLower

/-- Whether the pattern matches case-insensitively at the head of the
text. -/
def ciLeads : List Char → List Char → Bool
  | [], _ => true
  | _ :: _, [] => false
  | p :: ps, c :: cs => ciEq p c && ciLeads ps cs

/-- First index at or after the running index where the pattern matches
case-insensitively. -/
def ciFindAux (pat : List Char) : List Char → Nat → Option Nat
  | [], i => if pat = [] then some i else none
  | c :: cs, i =>
    if ciLeads pat (c :: cs) then some i else ciFindAux pat cs (i + 1)

/-- First match position of the pattern in the text at or after the given
start position; no match when the start position lies beyond the text, as
for a regular expression whose lastIndex exceeds the input length. -/
def ciFind (pat s : String) (start : Nat) : Option Nat :=
  if start ≤ s.data.length then ciFindAux pat.data (s.data.drop start) start
  else none

/-- The test method of a regular expression carrying the global flag:
search from lastIndex; on a match return true and advance lastIndex past
the match, on a miss return false and reset lastIndex to zero.  The
returned pair is the outcome and the new lastIndex. -/
def regexTestG (pat line : String) (lastIndex : Nat) : Bool × Nat :=
  match ciFind pat line lastIndex with
  | some j => (true, j + pat.data.length)
  | none => (false, 0)

/-- A character the trim method removes. -/
def isWS (c : Char) : Bool :=
  c = ' ' || c = '\t' || c = '\n' || c = '\r'

/-- The trim method: whitespace stripped from both ends. -/
def jsTrim (s : String) : String :=
  ⟨((s.data.dropWhile isWS).reverse.dropWhile isWS).reverse⟩

/-- One search result entry: relative file path, 1-indexed line number,
trimmed line content. -/
structure SearchMatch where
  file : String
  line : Nat
  content : String
  deriving Repr, DecidableEq

/-- The per-file line loop of FileSystemService.search: test each line
with the shared regular expression, threading its lastIndex state from
line to line, and record file, 1-indexed line number and trimmed content
on a hit.  Returns the matches and the final lastIndex. -/
def searchLines (pat file : String) :
    List String → Nat → Nat → List SearchMatch × Nat
  | [], _, li => ([], li)
  | l :: ls, idx, li =>
    let (hit, li2) := regexTestG pat l li
    let (rest, lif) := searchLines pat file ls (idx + 1) li2
    ((if hit then [⟨file, idx + 1, jsTrim l⟩] else []) ++ rest, lif)

/-- The file loop of FileSystemService.search: a file whose read fails is
skipped silently; a readable file contributes its line matches; the
single regular expression created before the loop carries its lastIndex
state across lines and across files. -/
def searchFiles (pat : String) :
    List (String × Option String) → Nat → List SearchMatch
  | [], _ => []
  | (_, none) :: fs, li => searchFiles pat fs li
  | (name, some content) :: fs, li =>
    let (rs, li2) := searchLines pat name (splitLines content) 0 li
    rs ++ searchFiles pat fs li2

/-- FileSystemService.search over the matched files, each given as its
path together with its content, or none when reading it fails: one
regular expression with the global and case-insensitive flags is created
and reused for every line of every file. -/
def search (pat : String) (files : List (String × Option String)) :
    List SearchMatch :=
  searchFiles pat files 0

/-- C5 at a failing input: in a single readable file whose two lines both
match the pattern case-insensitively, search reports only the first line
— the global-flag regular expression keeps its lastIndex after the first
hit, so the test on the second line starts past the match position and
misses.  The claim requires an entry for every matching line. -/
theorem search_global_flag_skips_matching_line :
    search "a" [("f.txt", some "ab\nab")] = [⟨"f.txt", 1, "ab"⟩] ∧
    (ciFind "a" "ab" 0).isSome = true ∧
    (search "a" [("f.txt", some "ab\nab")]).filter (fun r => r.line == 2) = [] := by
  decide

end Revio

namespace Revio

/-- The mutable state of the entry point that the timer and error
callbacks touch: whether the idle-watchdog and review timers are pending,
whether the review has completed, whether the socket is connected, and
whether process exit has been requested. -/
structure MainState where
  idlePending : Bool
  reviewPending : Bool
  reviewCompleted : Bool
  connected : Bool
  exited : Bool
  deriving Repr, DecidableEq

/-- The three failure-path terminal triggers of the entry point. -/
inductive Trigger
  | idleExpiry
  | reviewExpiry
  | criticalError
  deriving Repr, DecidableEq, Fintype

/-- The idle-watchdog expiry callback: fires only while the process is
alive and the idle timer is pending; it disconnects and requests exit.
It does not clear the review timer. -/
def onIdleExpiry (s : MainState) : MainState :=
  if s.exited || !s.idlePending then s
  else { s with idlePending := false, connected := false, exited := true }

/-- The review-timeout expiry callback: fires only while the process is
alive and the review timer is pending; when the review has already
completed it does nothing further, otherwise it clears the idle timer,
disconnects and requests exit. -/
def onReviewExpiry (s : MainState) : MainState :=
  if s.exited || !s.reviewPending then s
  else if s.reviewCompleted then { s with reviewPending := false }
  else
    { s with
        reviewPending := false
        idlePending := false
        connected := false
        exited := true }

/-- The critical-error callback of the entry point: while the process is
alive it clears the review timer, clears the idle timer, disconnects and
requests exit. -/
def onCriticalErrorSignal (s : MainState) : MainState :=
  if s.exited then s
  else
    { s with
        reviewPending := false
        idlePending := false
        connected := false
        exited := true }

/-- Dispatch of the three terminal triggers to their callbacks. -/
def stepTrigger : Trigger → MainState → MainState
  | Trigger.idleExpiry => onIdleExpiry
  | Trigger.reviewExpiry => onReviewExpiry
  | Trigger.criticalError => onCriticalErrorSignal

/-- C4 counterexample: from the steady state after connect (both timers
pending, review not completed), idle-watchdog expiry requests exit while
the review timer is still pending — the idle path does not cancel the
other pending timer before the exit path runs, contradicting the claim
that each of the three triggers cancels every other pending timer. -/
theorem idleExpiry_leaves_review_timer_pending :
    (stepTrigger Trigger.idleExpiry ⟨true, true, false, true, false⟩).exited = true ∧
    (stepTrigger Trigger.idleExpiry ⟨true, true, false, true, false⟩).reviewPending
      = true := by
  decide

/-- C4 amended: review-timeout expiry (with the review not yet completed)
cancels the idle timer before requesting exit, and the critical-error
signal cancels both timers before requesting exit; the idle-expiry path
requests exit without cancelling the review timer, but every trigger is a
no-op once exit has been requested, so at most one terminal transition
executes and no timer has any effect after termination is requested. -/
theorem terminal_triggers_cancel_amended (s : MainState) :
    (s.exited = false → s.reviewPending = true → s.reviewCompleted = false →
      (stepTrigger Trigger.reviewExpiry s).idlePending = false ∧
      (stepTrigger Trigger.reviewExpiry s).exited = true) ∧
    (s.exited = false →
      (stepTrigger Trigger.criticalError s).idlePending = false ∧
      (stepTrigger Trigger.criticalError s).reviewPending = false ∧
      (stepTrigger Trigger.criticalError s).exited = true) ∧
    (∀ t, s.exited = true → stepTrigger t s = s) ∧
    (∀ t1 t2, (stepTrigger t1 s).exited = true →
      stepTrigger t2 (stepTrigger t1 s) = stepTrigger t1 s) := by
  obtain ⟨i, r, rc, c, e⟩ := s
  cases i <;> cases r <;> cases rc <;> cases c <;> cases e <;> decide

/-- C4 amended witness: the cancellation clauses discharged at the steady
state after connect, and the absorbing clause at an exited state. -/
theorem terminal_triggers_cancel_amended_witness :
    ((stepTrigger Trigger.reviewExpiry ⟨true, true, false, true, false⟩).idlePending
        = false ∧
      (stepTrigger Trigger.reviewExpiry ⟨true, true, false, true, false⟩).exited
        = true) ∧
    ((stepTrigger Trigger.criticalError ⟨true, true, false, true, false⟩).idlePending
        = false ∧
      (stepTrigger Trigger.criticalError ⟨true, true, false, true, false⟩).reviewPending
        = false ∧
      (stepTrigger Trigger.criticalError ⟨true, true, false, true, false⟩).exited
        = true) ∧
    stepTrigger Trigger.reviewExpiry ⟨false, true, false, false, true⟩ =
      ⟨false, true, false, false, true⟩ :=
  ⟨(terminal_triggers_cancel_amended ⟨true, true, false, true, false⟩).1 rfl rfl rfl,
   (terminal_triggers_cancel_amended ⟨true, true, false, true, false⟩).2.1 rfl,
   (terminal_triggers_cancel_amended ⟨false, true, false, false, true⟩).2.2.1
     Trigger.reviewExpiry rfl⟩

end Revio
